import Mathlib

/-!
Verification development for the dynamic entity-mapping database layer of
the devtools repository (package `database`: dynamic.go, repository.go,
the Iter protocol, and their callers).

The Go code is shallowly embedded: reflection data (field lists, kinds,
tags) becomes explicit structures, the SQLite-backed store becomes an
explicit state (tables as column lists plus rows as association lists),
and fallible operations return `Option Err` / `Except Err`.
-/

namespace Devtools

/-- Model of Go's reflect.Kind, restricted to the constructors the
database layer inspects (plus representative non-scalar kinds). -/
inductive Kind where
  | String | Bool
  | Int | Int8 | Int16 | Int32 | Int64
  | Uint | Uint8 | Uint16 | Uint32 | Uint64 | Uintptr
  | Float32 | Float64 | Complex64 | Complex128
  | Ptr | Interface | Func | Struct
  | Slice | Array | Map | Chan
  deriving DecidableEq, Repr, Fintype

/-- Model of a declared struct field as seen by reflection: its name,
whether it is embedded/anonymous, its kind, and the value of its
`default` struct tag (empty string when the tag is absent, which is what
Go's Tag.Get returns). -/
structure StructField where
  name : String
  anonymous : Bool
  kind : Kind
  tagDefault : String
  deriving DecidableEq, Repr

/-- Shape of the Go value handed to the database layer: a struct, a
pointer to a struct, a pointer to something else, or a non-struct
non-pointer value. This is the information reflect.ValueOf exposes that
Fields / Register / entID consume. -/
inductive GoShape where
  | struct (fields : List StructField)
  | ptrStruct (fields : List StructField)
  | ptrOther (k : Kind)
  | other (k : Kind)
  deriving DecidableEq, Repr

/-- Kind of the value itself (reflect.ValueOf(ent).Kind()): a pointer
shape reports Ptr, a struct shape reports Struct. -/
def GoShape.valueKind : GoShape → Kind
  | .struct _ => .Struct
  | .ptrStruct _ => .Ptr
  | .ptrOther _ => .Ptr
  | .other k => k

/-- Direct field list of the value after one dereference (dynamic.go
dereferences exactly one pointer level); none when the dereferenced
value is not a struct. -/
def GoShape.derefFields : GoShape → Option (List StructField)
  | .struct fs => some fs
  | .ptrStruct fs => some fs
  | .ptrOther _ => none
  | .other _ => none

/-- Model of Go's cmp.Or on strings: the first argument unless it is the
zero value, in which case the second. -/
def cmpOr (a b : String) : String :=
  if a = "" then b else a

/-- A field is skipped by DynamicDB.Fields when it is anonymous or of
pointer, interface, function, or struct kind (dynamic.go lines 92-95). -/
def skipField (f : StructField) : Bool :=
  f.anonymous || f.kind = .Ptr || f.kind = .Interface ||
    f.kind = .Func || f.kind = .Struct

/-- Storage type chosen by the switch in DynamicDB.Fields for one kind. -/
def kindType (k : Kind) : String :=
  match k with
  | .String => "TEXT"
  | .Int | .Int8 | .Int16 | .Int32 | .Int64
  | .Uint | .Uint8 | .Uint16 | .Uint32 | .Uint64 | .Uintptr => "INTEGER"
  | .Float32 | .Float64 | .Complex64 | .Complex128 => "REAL"
  | .Bool => "BOOLEAN"
  | _ => "ANY"

/-- Type-implied default literal chosen by the same switch when the
`default` tag is empty. -/
def kindZeroDefault (k : Kind) : String :=
  match k with
  | .String => "\x27\x27"
  | .Int | .Int8 | .Int16 | .Int32 | .Int64
  | .Uint | .Uint8 | .Uint16 | .Uint32 | .Uint64 | .Uintptr => "0"
  | .Float32 | .Float64 | .Complex64 | .Complex128 => "0"
  | .Bool => "FALSE"
  | _ => "NULL"

/-- Default literal for one field: the `default` tag if non-empty, else
the type-implied zero literal (cmp.Or in dynamic.go lines 101-114). -/
def fieldDefault (f : StructField) : String :=
  cmpOr f.tagDefault (kindZeroDefault f.kind)

/-- The field loop of DynamicDB.Fields: walk the declared fields in
order, skip the non-persisted ones, and emit the three parallel lists
(names, storage types, default literals). -/
def fieldsLoop : List StructField → List String × List String × List String
  | [] => ([], [], [])
  | f :: rest =>
    let (ns, ts, ds) := fieldsLoop rest
    if skipField f then (ns, ts, ds)
    else (f.name :: ns, kindType f.kind :: ts, fieldDefault f :: ds)

/-- DynamicDB.Fields: dereference one pointer level; a non-struct yields
the three empty lists (the early return at dynamic.go line 85), else run
the field loop. -/
def Fields (shape : GoShape) : List String × List String × List String :=
  match shape.derefFields with
  | none => ([], [], [])
  | some fs => fieldsLoop fs

/-- Model of a SQL value stored in a cell or bound to a placeholder.
Timestamps are modelled as naturals, REAL values as integers (no claim
inspects real arithmetic). -/
inductive Val where
  | vstr (s : String)
  | vint (n : Int)
  | vbool (b : Bool)
  | vtime (t : Nat)
  | vnull
  deriving DecidableEq, Repr

/-- A row is an association list from column name to value. -/
abbrev Row := List (String × Val)

/-- Read a column of a row. -/
def getVal (r : Row) (c : String) : Option Val :=
  (List.find? (fun p => p.1 = c) r).map (fun p => p.2)

/-- Assign a column of a row: overwrite the existing cell, or append the
column when the row does not have it yet. -/
def setVal (r : Row) (c : String) (v : Val) : Row :=
  if r.any (fun p => p.1 = c) then
    r.map (fun p => if p.1 = c then (c, v) else p)
  else r ++ [(c, v)]

/-- One column of a table schema: name, storage type, default literal. -/
structure Column where
  name : String
  ctype : String
  cdefault : String
  deriving DecidableEq, Repr

/-- A table: its column list (in creation order) and its rows. -/
structure Table where
  columns : List Column
  rows : List Row
  deriving DecidableEq, Repr

/-- The identity/timestamp block every Entity embeds (database.Model:
ID, CreatedAt, UpdatedAt; the DB back-reference is not data). -/
structure ModelBlock where
  id : String
  createdAt : Nat
  updatedAt : Nat
  deriving DecidableEq, Repr

/-- A concrete Entity value: its table name, the reflective shape of the
Go value, the promoted Model block (reached by FieldByName), and the
values of its persistable scalar fields, keyed by field name. -/
structure EntityVal where
  table : String
  shape : GoShape
  model : ModelBlock
  scalars : List (String × Val)
  deriving DecidableEq, Repr

/-- State of a DynamicDB over the SQLite store: the named tables, the
registered-entity list (DynamicDB.Ents), and an oracle flag making the
engine fail the CREATE TABLE statement (disk-level failure). -/
structure DynamicDB where
  tables : List (String × Table)
  ents : List EntityVal
  createFails : Bool
  deriving DecidableEq, Repr

/-- Look up a table by name. -/
def lookupTable (db : DynamicDB) (t : String) : Option Table :=
  (List.find? (fun p => p.1 = t) db.tables).map (fun p => p.2)

/-- The three base columns of the CREATE TABLE statement in Register. -/
def baseColumns : List Column :=
  [⟨"ID", "TEXT", ""⟩,
   ⟨"CreatedAt", "TIMESTAMP", "CURRENT_TIMESTAMP"⟩,
   ⟨"UpdatedAt", "TIMESTAMP", "CURRENT_TIMESTAMP"⟩]

/-- CREATE TABLE IF NOT EXISTS: a no-op when the table exists, else
create it with the three base columns and no rows. -/
def createTableIfNotExists (db : DynamicDB) (t : String) : DynamicDB :=
  match lookupTable db t with
  | some _ => db
  | none => { db with tables := db.tables ++ [(t, ⟨baseColumns, []⟩)] }

/-- Whether a table already has a column of the given name. -/
def hasColumn (tbl : Table) (c : String) : Bool :=
  tbl.columns.any (fun col => col.name = c)

/-- ALTER TABLE t ADD COLUMN c: adding an existing column is an engine
error, which Register discards, so here it is a state no-op; adding a
fresh column appends it to the schema. Rows are untouched (no claim
inspects default backfill). -/
def alterAddColumn (db : DynamicDB) (t : String) (c : Column) : DynamicDB :=
  { db with tables := db.tables.map (fun p =>
      if p.1 = t ∧ ¬ hasColumn p.2 c.name then
        (p.1, { p.2 with columns := p.2.columns ++ [c] })
      else p) }

/-- The persistable columns of a shape: the Fields triple fused into a
Column per kept field, exactly as Register pairs fields[i], types[i],
defaults[i] in its ALTER loop. -/
def persistCols : List StructField → List Column
  | [] => []
  | f :: rest =>
    if skipField f then persistCols rest
    else ⟨f.name, kindType f.kind, fieldDefault f⟩ :: persistCols rest

/-- Run the ALTER loop of Register over the column list. -/
def alterAll (db : DynamicDB) (t : String) : List Column → DynamicDB
  | [] => db
  | c :: cs => alterAll (alterAddColumn db t c) t cs

/-- Errors Register can return. -/
inductive RegErr where
  | createFailed
  | notStruct
  deriving DecidableEq, Repr

/-- The columns the ALTER loop of Register walks for an entity: the
persistable columns of its dereferenced field list. -/
def registerCols (ent : EntityVal) : List Column :=
  match ent.shape.derefFields with
  | none => []
  | some fs => persistCols fs

/-- DynamicDB.Register: run CREATE TABLE IF NOT EXISTS (fails only via
the engine oracle), then check the value kind is Ptr or Struct, then run
the best-effort ALTER loop (errors swallowed), then append the entity to
the registered list. The error, if any, is returned next to the
post-state, because the CREATE TABLE side effect survives a kind error. -/
def Register (db : DynamicDB) (ent : EntityVal) : Option RegErr × DynamicDB :=
  if db.createFails then (some .createFailed, db)
  else
    let db₁ := createTableIfNotExists db ent.table
    if ent.shape.valueKind ≠ Kind.Ptr ∧ ent.shape.valueKind ≠ Kind.Struct then
      (some .notStruct, db₁)
    else
      let db₂ := alterAll db₁ ent.table (registerCols ent)
      (none, { db₂ with ents := db₂.ents ++ [ent] })

/-- DynamicDB.Reflect, name component: the three identity fields
prepended to the persistable field names. FieldByName resolves promoted
fields, so for every entity embedding Model all three identity names are
valid, and every persistable field is a direct field, hence valid too:
no name is dropped by the IsValid check. -/
def reflectNames (ent : EntityVal) : List String :=
  "ID" :: "CreatedAt" :: "UpdatedAt" :: (Fields ent.shape).1

/-- DynamicDB.Reflect, value component, in the same order as
reflectNames: identity values come from the promoted Model block, the
rest from the scalar field values. -/
def reflectValues (ent : EntityVal) : List Val :=
  Val.vstr ent.model.id :: Val.vtime ent.model.createdAt ::
    Val.vtime ent.model.updatedAt :: ent.scalars.map (fun p => p.2)

/-- DynamicDB.entID: walk the DIRECT fields of the dereferenced struct
looking for one literally named ID; read it when found, else fall
through to the empty string. A promoted ID inside an embedded Model is
not a direct field, so the loop does not see it. -/
def entID (ent : EntityVal) : String :=
  match ent.shape.derefFields with
  | none => ""
  | some fs => if fs.any (fun f => f.name = "ID") then ent.model.id else ""

/-- The exact statement text DynamicDB.Delete builds (dynamic.go lines
233-236): the raw Go literal with its newlines and tabs, with the table
name substituted for the verb placeholder. Note there is no FROM. -/
def deleteQuery (table : String) : String :=
  "\n\t\tDELETE " ++ table ++ "\n\t\tWHERE ID = ?\n\t"

/-- Statement text the spec claims Delete executes. -/
def specDeleteQuery (table : String) : String :=
  "DELETE FROM " ++ table ++ " WHERE ID = ?"

/-- Whitespace splitter over the underlying character list, accumulating
the current token in reverse. -/
def splitTokens : List Char → List Char → List String
  | [], acc => if acc = [] then [] else [String.mk acc.reverse]
  | c :: rest, acc =>
    if c = ' ' ∨ c = '\n' ∨ c = '\t' then
      (if acc = [] then [] else [String.mk acc.reverse]) ++ splitTokens rest []
    else splitTokens rest (c :: acc)

/-- Whitespace tokenization of SQL text, for comparing statements up to
layout. -/
def sqlTokens (s : String) : List String :=
  splitTokens s.data []

/-- DynamicDB.Delete: the executed statement and its single bound
argument, db.entID(ent). -/
def Delete (ent : EntityVal) : String × List Val :=
  (deleteQuery ent.table, [Val.vstr (entID ent)])

/-- Errors surfaced by the iterator protocol and the store. -/
inductive Err where
  | noRows
  | iterStop
  | sqlError (msg : String)
  deriving DecidableEq, Repr

/-- The row produced by binding an entity's reflected values to the
positional placeholders of an INSERT over reflectNames. -/
def rowOfEntity (ent : EntityVal) : Row :=
  ("ID", Val.vstr ent.model.id) ::
  ("CreatedAt", Val.vtime ent.model.createdAt) ::
  ("UpdatedAt", Val.vtime ent.model.updatedAt) :: ent.scalars

/-- Replace a table's content in the state. -/
def setTable (db : DynamicDB) (t : String) (tbl : Table) : DynamicDB :=
  { db with tables := db.tables.map (fun p => if p.1 = t then (t, tbl) else p) }

/-- DynamicDB.Insert: INSERT the reflected values into the entity's
table; RETURNING over the same column list scans the stored values back
into the record — the bound values themselves — so on success the record
is returned unchanged. A missing table or a primary-key conflict is an
engine error passed through. -/
def Insert (db : DynamicDB) (ent : EntityVal) : DynamicDB × EntityVal × Option Err :=
  match lookupTable db ent.table with
  | none => (db, ent, some (Err.sqlError "no such table"))
  | some tbl =>
    if tbl.rows.any (fun r => getVal r "ID" = some (Val.vstr ent.model.id)) then
      (db, ent, some (Err.sqlError "UNIQUE constraint failed"))
    else
      (setTable db ent.table { tbl with rows := tbl.rows ++ [rowOfEntity ent] },
       ent, none)

/-- The SET assignments DynamicDB.Update builds, in order: one
`field = ?` per reflected field (bound to the record's current values),
then the trailing `UpdatedAt = CURRENT_TIMESTAMP`. `now` is the engine's
CURRENT_TIMESTAMP. -/
def updateAssignments (ent : EntityVal) (now : Nat) : List (String × Val) :=
  ("ID", Val.vstr ent.model.id) ::
  ("CreatedAt", Val.vtime ent.model.createdAt) ::
  ("UpdatedAt", Val.vtime ent.model.updatedAt) ::
  ent.scalars ++ [("UpdatedAt", Val.vtime now)]

/-- Apply a SET list to a row, left to right; SQLite keeps the rightmost
assignment to a repeated column, which is what sequential overwriting
computes. -/
def applySets (r : Row) : List (String × Val) → Row
  | [] => r
  | (c, v) :: rest => applySets (setVal r c v) rest

/-- Whether a stored row is selected by WHERE ID = ? bound to the given
identifier. -/
def rowMatches (r : Row) (idv : String) : Bool :=
  getVal r "ID" = some (Val.vstr idv)

/-- Read a timestamp cell, defaulting to zero. -/
def timeOf (v : Option Val) : Nat :=
  match v with
  | some (Val.vtime t) => t
  | _ => 0

/-- DynamicDB.Update: UPDATE ... SET (updateAssignments) WHERE ID = ?
RETURNING UpdatedAt, with the identifier captured from the record's own
reflected field list; Scan reads the first returned row's UpdatedAt into
the record, and zero matched rows surface as the no-rows condition. -/
def Update (db : DynamicDB) (ent : EntityVal) (now : Nat) :
    DynamicDB × EntityVal × Option Err :=
  let entityID := ent.model.id
  let sets := updateAssignments ent now
  match lookupTable db ent.table with
  | none => (db, ent, some (Err.sqlError "no such table"))
  | some tbl =>
    let newRows := tbl.rows.map
      (fun r => if rowMatches r entityID then applySets r sets else r)
    let db' := setTable db ent.table { tbl with rows := newRows }
    match (tbl.rows.filter (fun r => rowMatches r entityID)).map
        (fun r => applySets r sets) with
    | [] => (db', ent, some Err.noRows)
    | ret :: _ =>
      (db', { ent with model :=
        { ent.model with updatedAt := timeOf (getVal ret "UpdatedAt") } }, none)

/-! The iterator protocol (Iter.Scan, Iter.All, Iter.Page) and the
cursor built on it. A query execution is modelled by its outcome: either
a driver error or the list of result rows. -/

/-- Iter.Scan: QueryRow plus row.Scan — a driver error passes through,
zero rows become the distinguishable no-rows error, otherwise the first
row is scanned. -/
def Scan (res : Except Err (List Row)) : Except Err Row :=
  match res with
  | .error e => .error e
  | .ok [] => .error Err.noRows
  | .ok (r :: _) => .ok r

/-- The row loop of Iter.All: invoke the visitor on each row; a visitor
error aborts the remaining rows and is returned as is. The first
component records the rows the visitor was actually invoked on. -/
def allLoop (fn : α → Option Err) : List α → List α × Option Err
  | [] => ([], none)
  | r :: rest =>
    match fn r with
    | some e => ([r], some e)
    | none =>
      let (vs, err) := allLoop fn rest
      (r :: vs, err)

/-- Iter.All: a failed query is returned as is, otherwise run the row
loop; zero rows mean zero visits and no error. -/
def All (res : Except Err (List α)) (fn : α → Option Err) : List α × Option Err :=
  match res with
  | .error e => ([], some e)
  | .ok rows => allLoop fn rows

/-- cursor.Iter: drive Iter.All, then translate exactly the no-rows
condition (errors.Is(err, sql.ErrNoRows)) to success; every other error,
the early-stop sentinel included, is returned to the caller. -/
def cursorIter (res : Except Err (List Row)) (fn : Row → Option Err) :
    List Row × Option Err :=
  let (vs, err) := All res fn
  match err with
  | some e => if e = Err.noRows then (vs, none) else (vs, some e)
  | none => (vs, none)

/-- Scanning a result row into a fresh record: the identity block comes
from the ID/CreatedAt/UpdatedAt cells, each scalar field from its named
cell (positional scan over reflectNames). -/
def loadRow (fresh : EntityVal) (r : Row) : EntityVal :=
  { fresh with
      model :=
        ⟨(match getVal r "ID" with | some (Val.vstr s) => s | _ => ""),
         timeOf (getVal r "CreatedAt"),
         timeOf (getVal r "UpdatedAt")⟩,
      scalars := fresh.scalars.map
        (fun p => (p.1, (getVal r p.1).getD Val.vnull)) }

/-- The visitor loop of Collection.Find: load the row into the one
shared record, then return the ErrIterStop sentinel, which Iter.All
propagates, ending iteration after the first row. -/
def findLoop (app : EntityVal) : List Row → EntityVal × Option Err
  | [] => (app, none)
  | r :: _ => (loadRow app r, some Err.iterStop)

/-- Collection.Find: allocate a fresh record, drive the cursor with the
load-then-stop visitor, and return the record next to whatever error
cursor.Iter hands back. -/
def Find (fresh : EntityVal) (res : Except Err (List Row)) :
    EntityVal × Option Err :=
  match res with
  | .error e => (fresh, if e = Err.noRows then none else some e)
  | .ok rows =>
    let (app, err) := findLoop fresh rows
    match err with
    | some e => (app, if e = Err.noRows then none else some e)
    | none => (app, none)

/-- The row loop of Iter.Page: pre-increment the count, stop reporting
`more` when it passes the limit, otherwise visit the row. The first
component records the rows the visitor was invoked on. -/
def pageLoop (fn : α → Option Err) (limit : Int) :
    List α → Int → List α × Bool × Option Err
  | [], _ => ([], false, none)
  | r :: rest, count =>
    let count := count + 1
    if count = limit + 1 then ([], true, none)
    else
      match fn r with
      | some e => ([r], false, some e)
      | none =>
        let (vs, more, err) := pageLoop fn limit rest count
        (r :: vs, more, err)

/-- Iter.Page: a failed query is returned as is, otherwise run the row
loop with the count starting at zero. -/
def Page (res : Except Err (List α)) (limit : Int) (fn : α → Option Err) :
    List α × Bool × Option Err :=
  match res with
  | .error e => ([], false, some e)
  | .ok rows => pageLoop fn limit rows 0

/-! The typed Collection. -/

/-- A typed Collection: the bound entity prototype (the DB reference and
the reflect.Type add no data to the model). -/
structure Collection where
  ent : EntityVal
  deriving DecidableEq, Repr

/-- Collection.Insert: when the record's identifier is empty, assign the
freshly generated identifier and set both timestamps to the current
instant, then delegate to the store's Insert; a record with a non-empty
identifier is delegated untouched. genId models uuid.NewString(), now
models time.Now(). -/
def collectionInsert (db : DynamicDB) (ent : EntityVal)
    (genId : String) (now : Nat) : DynamicDB × EntityVal × Option Err :=
  let ent := if ent.model.id = "" then
      { ent with model := ⟨genId, now, now⟩ }
    else ent
  Insert db ent

/-- database.Manage: register the entity, DISCARDING the returned error,
then hand back a freshly built Collection; there is no failure path in
its signature. -/
def Manage (db : DynamicDB) (ent : EntityVal) : DynamicDB × Collection :=
  ((Register db ent).2, ⟨ent⟩)

/-! Kind groups named by the spec's type-mapping table, and a property
used in the Register proofs. -/

/-- The signed and unsigned integer kinds. -/
def intKinds : List Kind :=
  [.Int, .Int8, .Int16, .Int32, .Int64,
   .Uint, .Uint8, .Uint16, .Uint32, .Uint64, .Uintptr]

/-- The floating-point and complex kinds. -/
def floatKinds : List Kind :=
  [.Float32, .Float64, .Complex64, .Complex128]

/-- The kinds whose fields are never persisted. -/
def skippedKinds : List Kind :=
  [.Ptr, .Interface, .Func, .Struct]

/-- Every table stored under name t already has a column named c. -/
def colPresent (db : DynamicDB) (t c : String) : Prop :=
  ∀ p ∈ db.tables, p.1 = t → hasColumn p.2 c = true

/-! Concrete sample data used by witnesses and counterexamples: a task
entity shaped like the repository's own record types (an embedded
anonymous Model block plus scalar fields). -/

/-- Shape of a *Task struct embedding database.Model. -/
def sampleShape : GoShape :=
  .ptrStruct
    [⟨"Model", true, .Struct, ""⟩,
     ⟨"Title", false, .String, ""⟩,
     ⟨"Done", false, .Bool, ""⟩]

/-- A task record whose Model block carries identifier abc. -/
def sampleTask : EntityVal :=
  ⟨"tasks", sampleShape, ⟨"abc", 5, 5⟩,
   [("Title", Val.vstr "a"), ("Done", Val.vbool false)]⟩

/-- A value of a defined non-struct type (say a named string) that
still implements the Entity interface, exercising the shape error. -/
def nonStructEnt : EntityVal :=
  ⟨"weird", .other .String, ⟨"", 0, 0⟩, []⟩

/-- Three stored rows matching a Find query. -/
def sampleRow1 : Row :=
  [("ID", Val.vstr "id1"), ("CreatedAt", Val.vtime 1), ("UpdatedAt", Val.vtime 1),
   ("Title", Val.vstr "a"), ("Done", Val.vbool true)]

/-- Second sample row. -/
def sampleRow2 : Row :=
  [("ID", Val.vstr "id2"), ("CreatedAt", Val.vtime 2), ("UpdatedAt", Val.vtime 2),
   ("Title", Val.vstr "b"), ("Done", Val.vbool true)]

/-- Third sample row. -/
def sampleRow3 : Row :=
  [("ID", Val.vstr "id3"), ("CreatedAt", Val.vtime 3), ("UpdatedAt", Val.vtime 3),
   ("Title", Val.vstr "c"), ("Done", Val.vbool true)]

/-- An update target whose in-memory CreatedAt (2) disagrees with the
stored row's CreatedAt (1). -/
def staleEnt : EntityVal :=
  ⟨"tasks", sampleShape, ⟨"abc", 2, 1⟩,
   [("Title", Val.vstr "x"), ("Done", Val.vbool true)]⟩

/-- The stored row staleEnt targets. -/
def staleRow : Row :=
  [("ID", Val.vstr "abc"), ("CreatedAt", Val.vtime 1), ("UpdatedAt", Val.vtime 1),
   ("Title", Val.vstr "x"), ("Done", Val.vbool true)]

/-- A one-table, one-row store holding staleRow. -/
def staleDb : DynamicDB :=
  ⟨[("tasks", ⟨baseColumns, [staleRow]⟩)], [], false⟩

/-- A one-table store holding exactly the row sampleTask was inserted
as, so the record and the stored row agree on every field. -/
def sampleDb : DynamicDB :=
  ⟨[("tasks", ⟨baseColumns, [rowOfEntity sampleTask]⟩)], [], false⟩

/-! Theorems. Helper lemmas come first, then one theorem per claim. -/

/-- The field loop of Fields keeps exactly the non-skipped fields, in
declaration order, and maps each through kindType / fieldDefault. -/
theorem fieldsLoop_eq_filter (fs : List StructField) :
    fieldsLoop fs =
      ((fs.filter fun f => ! skipField f).map StructField.name,
       (fs.filter fun f => ! skipField f).map (fun f => kindType f.kind),
       (fs.filter fun f => ! skipField f).map fieldDefault) := by
  induction fs with
  | nil => rfl
  | cons f rest ih =>
    by_cases h : skipField f
    · simp [fieldsLoop, List.filter_cons, h, ih]
    · simp [fieldsLoop, List.filter_cons, h, ih]

/-- C3: the Schema Reflector iterates declared fields in order, skips
anonymous fields and fields of pointer/interface/function/struct kind,
maps every remaining kind totally (string to TEXT with default two
single quotes, all integer widths to INTEGER 0, float and complex widths
to REAL 0, bool to BOOLEAN FALSE, everything else to ANY NULL), and a
non-empty `default` tag overrides the type-implied default. -/
theorem fields_reflector_spec :
    (∀ fs : List StructField,
      Fields (GoShape.struct fs) =
        ((fs.filter fun f => ! skipField f).map StructField.name,
         (fs.filter fun f => ! skipField f).map (fun f => kindType f.kind),
         (fs.filter fun f => ! skipField f).map fieldDefault) ∧
      Fields (GoShape.ptrStruct fs) = Fields (GoShape.struct fs)) ∧
    (∀ f : StructField,
      skipField f = (f.anonymous || decide (f.kind ∈ skippedKinds))) ∧
    (∀ k : Kind, k ∈ intKinds → kindType k = "INTEGER" ∧ kindZeroDefault k = "0") ∧
    (∀ k : Kind, k ∈ floatKinds → kindType k = "REAL" ∧ kindZeroDefault k = "0") ∧
    (kindType Kind.String = "TEXT" ∧ kindZeroDefault Kind.String = "\x27\x27") ∧
    (kindType Kind.Bool = "BOOLEAN" ∧ kindZeroDefault Kind.Bool = "FALSE") ∧
    (∀ k : Kind, k ∉ Kind.String :: Kind.Bool :: (intKinds ++ floatKinds) →
      kindType k = "ANY" ∧ kindZeroDefault k = "NULL") ∧
    (∀ f : StructField, f.tagDefault ≠ "" → fieldDefault f = f.tagDefault) ∧
    (∀ f : StructField, f.tagDefault = "" → fieldDefault f = kindZeroDefault f.kind) := by
  refine ⟨fun fs => ⟨by simp [Fields, GoShape.derefFields, fieldsLoop_eq_filter], rfl⟩,
    fun f => ?_, by decide, by decide, by decide, by decide, by decide,
    fun f h => ?_, fun f h => ?_⟩
  · cases f with
    | mk n a k d =>
      cases a <;> cases k <;> simp [skipField, skippedKinds]
  · simp [fieldDefault, cmpOr, h]
  · simp [fieldDefault, cmpOr, h]

/-- Witness for fields_reflector_spec at concrete fields. -/
theorem fields_reflector_spec_witness :
    Fields (GoShape.struct [⟨"Done", false, Kind.Bool, ""⟩]) =
      (["Done"], ["BOOLEAN"], ["FALSE"]) ∧
    kindType Kind.Int64 = "INTEGER" ∧
    fieldDefault ⟨"Count", false, Kind.Int, "7"⟩ = "7" := by
  refine ⟨?_, ?_, ?_⟩
  · have h := (fields_reflector_spec.1 [⟨"Done", false, Kind.Bool, ""⟩]).1
    simpa [skipField] using h
  · exact (fields_reflector_spec.2.2.1 Kind.Int64 (by decide)).1
  · exact fields_reflector_spec.2.2.2.2.2.2.2.1 ⟨"Count", false, Kind.Int, "7"⟩ (by decide)

/-- C7: Scan turns an empty result into the distinguishable no-rows
error and passes any driver error through unmodified; All and the
cursor's Iter treat an empty result as success with zero visits. -/
theorem iter_empty_result_spec :
    (Scan (Except.ok ([] : List Row)) = Except.error Err.noRows) ∧
    (∀ e : Err, Scan (Except.error e) = (Except.error e : Except Err Row)) ∧
    (∀ (r : Row) (rs : List Row), Scan (Except.ok (r :: rs)) = Except.ok r) ∧
    ((Err.noRows == Err.iterStop) = false) ∧
    (∀ m : String, (Err.noRows == Err.sqlError m) = false) ∧
    (∀ fn : Row → Option Err, All (Except.ok ([] : List Row)) fn = ([], none)) ∧
    (∀ (fn : Row → Option Err) (e : Err),
      All (Except.error e : Except Err (List Row)) fn = ([], some e)) ∧
    (∀ fn : Row → Option Err, cursorIter (Except.ok []) fn = ([], none)) := by
  refine ⟨rfl, fun e => rfl, fun r rs => rfl, by decide, fun m => rfl,
    fun fn => rfl, fun fn e => rfl, fun fn => rfl⟩

/-- C9: Manage registers the entity, discards Register's error, and
always hands back a Collection; in particular a state whose engine fails
the CREATE TABLE still yields a Collection with no visible failure. -/
theorem manage_swallows_register_error :
    (∀ (db : DynamicDB) (ent : EntityVal),
      Manage db ent = ((Register db ent).2, (⟨ent⟩ : Collection))) ∧
    (∀ (db : DynamicDB) (ent : EntityVal), db.createFails = true →
      (Register db ent).1 = some RegErr.createFailed ∧
      Manage db ent = (db, (⟨ent⟩ : Collection))) := by
  refine ⟨fun db ent => rfl, fun db ent h => ?_⟩
  constructor
  · simp [Register, h]
  · simp [Manage, Register, h]

/-- Witness for manage_swallows_register_error on a failing engine. -/
theorem manage_swallows_register_error_witness :
    (Register ⟨[], [], true⟩ sampleTask).1 = some RegErr.createFailed ∧
    Manage ⟨[], [], true⟩ sampleTask = (⟨[], [], true⟩, ⟨sampleTask⟩) :=
  manage_swallows_register_error.2 ⟨[], [], true⟩ sampleTask rfl

/-- C1 exhibit: on a result of three matching rows, Find loads exactly
the first row into the fresh record but hands the ErrIterStop sentinel
back to the caller, because cursor.Iter translates only the no-rows
condition; the claimed nil error does not hold. -/
theorem find_surfaces_iterstop :
    Find sampleTask (Except.ok [sampleRow1, sampleRow2, sampleRow3]) =
      (loadRow sampleTask sampleRow1, some Err.iterStop) ∧
    findLoop sampleTask [sampleRow1, sampleRow2, sampleRow3] =
      (loadRow sampleTask sampleRow1, some Err.iterStop) ∧
    ((some Err.iterStop == (none : Option Err)) = false) ∧
    (loadRow sampleTask sampleRow1).model.id = "id1" := by
  refine ⟨rfl, rfl, by decide, by decide⟩

/-- C2 exhibit: the statement Delete builds reads DELETE table WHERE,
with no FROM token (a SQLite syntax error), unlike the statement the
spec claims; and entID, which scans only direct fields for one named ID,
returns the empty string for a record whose ID lives in the embedded
Model block, so the bound argument is empty rather than the record's
identifier. -/
theorem delete_statement_bug :
    sqlTokens (deleteQuery "tasks") = ["DELETE", "tasks", "WHERE", "ID", "=", "?"] ∧
    sqlTokens (specDeleteQuery "tasks") =
      ["DELETE", "FROM", "tasks", "WHERE", "ID", "=", "?"] ∧
    ((sqlTokens (deleteQuery "tasks")).contains "FROM") = false ∧
    entID sampleTask = "" ∧
    sampleTask.model.id = "abc" ∧
    Delete sampleTask = (deleteQuery "tasks", [Val.vstr ""]) := by
  refine ⟨by decide, by decide, by decide, by decide, by decide, by decide⟩

/-- The store's Insert hands the very record it was given back to the
caller, whatever the outcome. -/
theorem insert_returns_record (db : DynamicDB) (e : EntityVal) :
    (Insert db e).2.1 = e := by
  unfold Insert
  split
  · rfl
  · split
    · rfl
    · rfl

/-- C5: Collection.Insert assigns the generated identifier and sets both
timestamps to the current instant exactly when the record's identifier
is empty, performs no client-side assignment otherwise, and in both
cases returns the (possibly mutated) record next to the store's error. -/
theorem collection_insert_spec :
    ∀ (db : DynamicDB) (ent : EntityVal) (genId : String) (now : Nat),
      (ent.model.id = "" →
        collectionInsert db ent genId now =
          Insert db { ent with model := ⟨genId, now, now⟩ }) ∧
      (¬ ent.model.id = "" →
        collectionInsert db ent genId now = Insert db ent) ∧
      ((collectionInsert db ent genId now).2.1 =
        if ent.model.id = "" then { ent with model := ⟨genId, now, now⟩ } else ent) ∧
      ((collectionInsert db ent genId now).2.2 =
        (Insert db (if ent.model.id = "" then
          { ent with model := ⟨genId, now, now⟩ } else ent)).2.2) := by
  intro db ent genId now
  refine ⟨fun h => by simp [collectionInsert, h], fun h => by simp [collectionInsert, h],
    ?_, ?_⟩
  · by_cases h : ent.model.id = ""
    · simp [collectionInsert, h, insert_returns_record]
    · simp [collectionInsert, h, insert_returns_record]
  · by_cases h : ent.model.id = ""
    · simp [collectionInsert, h]
    · simp [collectionInsert, h]

/-- Witness for collection_insert_spec, one instance per branch. -/
theorem collection_insert_spec_witness :
    collectionInsert ⟨[], [], false⟩ { sampleTask with model := ⟨"", 0, 0⟩ } "uuid-1" 9 =
      Insert ⟨[], [], false⟩ { sampleTask with model := ⟨"uuid-1", 9, 9⟩ } ∧
    collectionInsert ⟨[], [], false⟩ sampleTask "uuid-1" 9 =
      Insert ⟨[], [], false⟩ sampleTask := by
  constructor
  · have h := (collection_insert_spec ⟨[], [], false⟩
      { sampleTask with model := ⟨"", 0, 0⟩ } "uuid-1" 9).1 rfl
    simpa using h
  · exact (collection_insert_spec ⟨[], [], false⟩ sampleTask "uuid-1" 9).2.1 (by decide)

/-- The Page row loop under an always-successful visitor, starting from
an in-range counter: it consumes the remaining budget of rows and
reports whether rows were left over. -/
theorem pageLoop_inrange {α : Type} (rows : List α) :
    ∀ (L c : Int), 0 ≤ c → c ≤ L →
      pageLoop (fun _ => (none : Option Err)) L rows c =
        if ((rows.length : Int) ≤ L - c) then (rows, false, none)
        else (rows.take (L - c).toNat, true, none) := by
  induction rows with
  | nil =>
    intro L c h0 hL
    rw [if_pos (by simpa using sub_nonneg.mpr hL)]
    rfl
  | cons r rest ih =>
    intro L c h0 hL
    show (if c + 1 = L + 1 then _ else _) = _
    by_cases hstop : c + 1 = L + 1
    · rw [if_pos hstop]
      have h1 : ¬ (((r :: rest).length : Int) ≤ L - c) := by
        simp only [List.length_cons]
        push_cast
        omega
      rw [if_neg h1]
      have h2 : (L - c).toNat = 0 := by omega
      simp [h2]
    · rw [if_neg hstop]
      show (let p := pageLoop _ L rest (c + 1); (r :: p.1, p.2.1, p.2.2)) = _
      rw [ih L (c + 1) (by omega) (by omega)]
      by_cases hlen : ((rest.length : Int) ≤ L - (c + 1))
      · rw [if_pos hlen]
        have h1 : (((r :: rest).length : Int) ≤ L - c) := by
          simp only [List.length_cons]
          push_cast
          omega
        rw [if_pos h1]
      · rw [if_neg hlen]
        have h1 : ¬ (((r :: rest).length : Int) ≤ L - c) := by
          simp only [List.length_cons]
          push_cast
          omega
        rw [if_neg h1]
        have h2 : (L - c).toNat = (L - (c + 1)).toNat + 1 := by omega
        rw [h2]
        rfl

/-- The Page row loop with the counter already past the limit never
trips the cap: every row is visited and no leftover is reported. -/
theorem pageLoop_pastLimit {α : Type} (rows : List α) :
    ∀ (L c : Int), L + 1 ≤ c →
      pageLoop (fun _ => (none : Option Err)) L rows c = (rows, false, none) := by
  induction rows with
  | nil => intro L c h; rfl
  | cons r rest ih =>
    intro L c h
    show (if c + 1 = L + 1 then _ else _) = _
    rw [if_neg (by omega)]
    show (let p := pageLoop _ L rest (c + 1); (r :: p.1, p.2.1, p.2.2)) = _
    rw [ih L (c + 1) (by omega)]

/-- C6 (amended): for a nonnegative page limit L over N result rows,
Page visits exactly L rows and reports more when L < N, visits all N
rows and reports no-more when L is at least N, and an empty result is
never an error; a negative limit disables the cap, visiting every row
and reporting no-more. -/
theorem page_boundary_spec :
    ∀ (rows : List Row) (L : Int),
      (0 ≤ L → L < (rows.length : Int) →
        Page (Except.ok rows) L (fun _ => none) =
          (rows.take L.toNat, true, none) ∧
        (rows.take L.toNat).length = L.toNat) ∧
      (0 ≤ L → (rows.length : Int) ≤ L →
        Page (Except.ok rows) L (fun _ => none) = (rows, false, none)) ∧
      (L < 0 → Page (Except.ok rows) L (fun _ => none) = (rows, false, none)) ∧
      (∀ fn : Row → Option Err, Page (Except.ok ([] : List Row)) L fn = ([], false, none)) := by
  intro rows L
  refine ⟨fun h0 hN => ?_, fun h0 hN => ?_, fun hneg => ?_, fun fn => rfl⟩
  · constructor
    · show pageLoop _ L rows 0 = _
      rw [pageLoop_inrange rows L 0 le_rfl h0]
      rw [if_neg (by omega)]
      simp
    · rw [List.length_take]
      omega
  · show pageLoop _ L rows 0 = _
    rw [pageLoop_inrange rows L 0 le_rfl h0]
    rw [if_pos (by omega)]
  · show pageLoop _ L rows 0 = _
    exact pageLoop_pastLimit rows L 0 (by omega)

/-- Witness for page_boundary_spec: three rows against limits 2, 5, -1. -/
theorem page_boundary_spec_witness :
    Page (Except.ok [sampleRow1, sampleRow2, sampleRow3]) 2 (fun _ => none) =
      ([sampleRow1, sampleRow2], true, none) ∧
    Page (Except.ok [sampleRow1, sampleRow2, sampleRow3]) 5 (fun _ => none) =
      ([sampleRow1, sampleRow2, sampleRow3], false, none) ∧
    Page (Except.ok [sampleRow1, sampleRow2, sampleRow3]) (-1) (fun _ => none) =
      ([sampleRow1, sampleRow2, sampleRow3], false, none) := by
  refine ⟨?_, ?_, ?_⟩
  · have h := ((page_boundary_spec [sampleRow1, sampleRow2, sampleRow3] 2).1
      (by decide) (by decide)).1
    simpa using h
  · exact (page_boundary_spec [sampleRow1, sampleRow2, sampleRow3] 5).2.1
      (by decide) (by decide)
  · exact (page_boundary_spec [sampleRow1, sampleRow2, sampleRow3] (-1)).2.2.1
      (by decide)

/-- C6 counterexample: with limit -1 over one row (so L < N), Page
visits that row and reports false, not the claimed true, and the visited
count is 1, which no reading makes equal to -1. -/
theorem page_negative_limit_counterexample :
    Page (Except.ok [sampleRow1]) (-1) (fun _ => none) = ([sampleRow1], false, none) ∧
    ((-1 : Int) < (([sampleRow1] : List Row).length : Int)) ∧
    ((false == true) = false) ∧
    ((1 : Int) - (-1) = 2) := by
  refine ⟨rfl, by decide, by decide, by decide⟩

/-- Appending a binding for an absent key makes lookup find it. -/
theorem lookupTable_append_new (db : DynamicDB) (t : String) (tbl : Table)
    (h : lookupTable db t = none) :
    lookupTable { db with tables := db.tables ++ [(t, tbl)] } t = some tbl := by
  unfold lookupTable at h ⊢
  have h' : List.find? (fun p => p.1 = t) db.tables = none := by
    cases hf : List.find? (fun p => p.1 = t) db.tables with
    | none => rfl
    | some p => rw [hf] at h; simp at h
  simp [List.find?_append, h', List.find?_cons_of_pos]

/-- C10: Register issues the CREATE TABLE before validating the record's
shape, so rejecting a non-structural record still leaves the base table
(ID, CreatedAt, UpdatedAt) created, and the record is not appended to
the registered list. -/
theorem register_ddl_precedes_shape_check :
    ∀ (db : DynamicDB) (ent : EntityVal),
      db.createFails = false →
      lookupTable db ent.table = none →
      ent.shape.valueKind ≠ Kind.Ptr →
      ent.shape.valueKind ≠ Kind.Struct →
      (Register db ent).1 = some RegErr.notStruct ∧
      lookupTable (Register db ent).2 ent.table = some ⟨baseColumns, []⟩ ∧
      (Register db ent).2.ents = db.ents ∧
      (Register db ent).2.tables = db.tables ++ [(ent.table, ⟨baseColumns, []⟩)] := by
  intro db ent hcf habs hptr hstruct
  have hreg : Register db ent =
      (some RegErr.notStruct,
       { db with tables := db.tables ++ [(ent.table, ⟨baseColumns, []⟩)] }) := by
    unfold Register createTableIfNotExists
    rw [if_neg (by simp [hcf]), habs, if_pos ⟨hptr, hstruct⟩]
  rw [hreg]
  exact ⟨rfl, lookupTable_append_new db ent.table ⟨baseColumns, []⟩ habs, rfl, rfl⟩

/-- Witness for register_ddl_precedes_shape_check: an empty store and a
named-string entity. -/
theorem register_ddl_precedes_shape_check_witness :
    (Register ⟨[], [], false⟩ nonStructEnt).1 = some RegErr.notStruct ∧
    lookupTable (Register ⟨[], [], false⟩ nonStructEnt).2 "weird" =
      some ⟨baseColumns, []⟩ ∧
    (Register ⟨[], [], false⟩ nonStructEnt).2.ents = [] ∧
    (Register ⟨[], [], false⟩ nonStructEnt).2.tables =
      [("weird", ⟨baseColumns, []⟩)] := by
  have h := register_ddl_precedes_shape_check ⟨[], [], false⟩ nonStructEnt
    rfl rfl (by decide) (by decide)
  simpa [nonStructEnt] using h

/-- find? over a map that preserves keys commutes with the map. -/
theorem find?_map_keypres {β : Type} {f : String × β → String × β}
    (hf : ∀ p, (f p).1 = p.1) (u : String) :
    ∀ l : List (String × β),
      List.find? (fun p => p.1 = u) (l.map f) =
        Option.map f (List.find? (fun p => p.1 = u) l) := by
  intro l
  induction l with
  | nil => rfl
  | cons p rest ih =>
    cases hdec : decide (p.1 = u) with
    | false => simp [List.find?_cons, hf p, hdec, ih]
    | true => simp [List.find?_cons, hf p, hdec]

/-- The CREATE TABLE IF NOT EXISTS step changes no registered list. -/
theorem cti_ents (db : DynamicDB) (t : String) :
    (createTableIfNotExists db t).ents = db.ents := by
  unfold createTableIfNotExists
  split <;> rfl

/-- The CREATE TABLE IF NOT EXISTS step keeps the failure oracle. -/
theorem cti_createFails (db : DynamicDB) (t : String) :
    (createTableIfNotExists db t).createFails = db.createFails := by
  unfold createTableIfNotExists
  split <;> rfl

/-- After CREATE TABLE IF NOT EXISTS, the table exists. -/
theorem cti_isSome (db : DynamicDB) (t : String) :
    (lookupTable (createTableIfNotExists db t) t).isSome = true := by
  unfold createTableIfNotExists
  cases h : lookupTable db t with
  | some tbl => simp [h]
  | none => simp [lookupTable_append_new db t ⟨baseColumns, []⟩ h]

/-- The ALTER step only rewrites tables. -/
theorem alter_ents (db : DynamicDB) (t : String) (c : Column) :
    (alterAddColumn db t c).ents = db.ents := rfl

/-- The ALTER step keeps the failure oracle. -/
theorem alter_createFails (db : DynamicDB) (t : String) (c : Column) :
    (alterAddColumn db t c).createFails = db.createFails := rfl

/-- The ALTER step keeps every table's existence. -/
theorem alter_isSome (db : DynamicDB) (t : String) (c : Column) (u : String) :
    (lookupTable (alterAddColumn db t c) u).isSome = (lookupTable db u).isSome := by
  unfold alterAddColumn lookupTable
  rw [find?_map_keypres (f := fun p =>
    if p.1 = t ∧ ¬ hasColumn p.2 c.name then
      (p.1, { p.2 with columns := p.2.columns ++ [c] })
    else p) (fun p => by dsimp only; split <;> rfl) u]
  cases List.find? (fun p => p.1 = u) db.tables <;> rfl

/-- The ALTER loop only rewrites tables. -/
theorem alterAll_ents (t : String) :
    ∀ (cs : List Column) (db : DynamicDB), (alterAll db t cs).ents = db.ents := by
  intro cs
  induction cs with
  | nil => intro db; rfl
  | cons c cs ih => intro db; rw [alterAll, ih, alter_ents]

/-- The ALTER loop keeps the failure oracle. -/
theorem alterAll_createFails (t : String) :
    ∀ (cs : List Column) (db : DynamicDB),
      (alterAll db t cs).createFails = db.createFails := by
  intro cs
  induction cs with
  | nil => intro db; rfl
  | cons c cs ih => intro db; rw [alterAll, ih, alter_createFails]

/-- The ALTER loop keeps every table's existence. -/
theorem alterAll_isSome (t u : String) :
    ∀ (cs : List Column) (db : DynamicDB),
      (lookupTable (alterAll db t cs) u).isSome = (lookupTable db u).isSome := by
  intro cs
  induction cs with
  | nil => intro db; rfl
  | cons c cs ih => intro db; rw [alterAll, ih, alter_isSome]

/-- ALTER establishes its own column on every table of the target name. -/
theorem colPresent_alter_self (db : DynamicDB) (t : String) (c : Column) :
    colPresent (alterAddColumn db t c) t c.name := by
  intro p hp hpt
  simp only [alterAddColumn, List.mem_map] at hp
  obtain ⟨q, hq, rfl⟩ := hp
  by_cases hcond : q.1 = t ∧ ¬ hasColumn q.2 c.name = true
  · rw [if_pos hcond]
    simp [hasColumn, List.any_append]
  · rw [if_neg hcond] at hpt ⊢
    exact not_not.mp (not_and.mp hcond hpt)

/-- ALTER preserves every previously present column. -/
theorem colPresent_alter_mono (db : DynamicDB) (t : String) (c : Column)
    {u n : String} (h : colPresent db u n) :
    colPresent (alterAddColumn db t c) u n := by
  intro p hp hpt
  simp only [alterAddColumn, List.mem_map] at hp
  obtain ⟨q, hq, rfl⟩ := hp
  by_cases hcond : q.1 = t ∧ ¬ hasColumn q.2 c.name = true
  · rw [if_pos hcond] at hpt ⊢
    have hq2 := h q hq hpt
    simp [hasColumn, List.any_append] at hq2 ⊢
    exact Or.inl hq2
  · rw [if_neg hcond] at hpt ⊢
    exact h q hq hpt

/-- The ALTER loop preserves every previously present column. -/
theorem colPresent_alterAll_mono (t : String) {u n : String} :
    ∀ (cs : List Column) (db : DynamicDB),
      colPresent db u n → colPresent (alterAll db t cs) u n := by
  intro cs
  induction cs with
  | nil => intro db h; exact h
  | cons c cs ih => intro db h; exact ih _ (colPresent_alter_mono db t c h)

/-- After the ALTER loop, every walked column is present on every table
of the target name. -/
theorem colPresent_alterAll (t : String) :
    ∀ (cs : List Column) (db : DynamicDB),
      ∀ c ∈ cs, colPresent (alterAll db t cs) t c.name := by
  intro cs
  induction cs with
  | nil => intro db c hc; cases hc
  | cons c₀ cs ih =>
    intro db c hc
    rcases List.mem_cons.mp hc with h | h
    · subst h
      exact colPresent_alterAll_mono t cs _ (colPresent_alter_self db t c)
    · exact ih _ c h

/-- ALTER on an everywhere-present column is a swallowed duplicate
error: the state is unchanged. -/
theorem alter_of_present {db : DynamicDB} {t : String} {c : Column}
    (h : colPresent db t c.name) :
    alterAddColumn db t c = db := by
  unfold alterAddColumn
  have hm : db.tables.map (fun p =>
      if p.1 = t ∧ ¬ hasColumn p.2 c.name then
        (p.1, { p.2 with columns := p.2.columns ++ [c] })
      else p) = db.tables := by
    have hpt : ∀ p ∈ db.tables, (fun p =>
        if p.1 = t ∧ ¬ hasColumn p.2 c.name then
          (p.1, { p.2 with columns := p.2.columns ++ [c] })
        else p) p = id p := by
      intro p hp
      simp only [id]
      rw [if_neg]
      rintro ⟨h1, h2⟩
      exact h2 (h p hp h1)
    rw [List.map_congr_left hpt, List.map_id]
  rw [hm]

/-- The ALTER loop over everywhere-present columns changes nothing. -/
theorem alterAll_of_present {t : String} :
    ∀ {cs : List Column} {db : DynamicDB},
      (∀ c ∈ cs, colPresent db t c.name) → alterAll db t cs = db := by
  intro cs
  induction cs with
  | nil => intro db _; rfl
  | cons c cs ih =>
    intro db h
    rw [alterAll, alter_of_present (h c (List.mem_cons_self c cs))]
    exact ih (fun c' hc' => h c' (List.mem_cons_of_mem c hc'))

/-- C4: Register succeeds exactly when the CREATE TABLE succeeds and the
record is structural (pointer or struct) — every ALTER error is
swallowed — and a successful Register followed by a second Register of
the same record succeeds again with an identical table set, the only
difference being the duplicate registered-list entry. -/
theorem register_idempotent_spec :
    ∀ (db : DynamicDB) (ent : EntityVal),
      ((Register db ent).1 = none ↔
        db.createFails = false ∧
        (ent.shape.valueKind = Kind.Ptr ∨ ent.shape.valueKind = Kind.Struct)) ∧
      ((Register db ent).1 = none →
        (Register (Register db ent).2 ent).1 = none ∧
        (Register (Register db ent).2 ent).2.tables = (Register db ent).2.tables ∧
        (Register (Register db ent).2 ent).2.ents =
          (Register db ent).2.ents ++ [ent]) := by
  intro db ent
  have hiff : (Register db ent).1 = none ↔
      db.createFails = false ∧
      (ent.shape.valueKind = Kind.Ptr ∨ ent.shape.valueKind = Kind.Struct) := by
    by_cases hcf : db.createFails
    · simp [Register, hcf]
    · by_cases hk : ent.shape.valueKind ≠ Kind.Ptr ∧ ent.shape.valueKind ≠ Kind.Struct
      · simp only [Register, if_neg hcf, if_pos hk]
        simp [hcf]
        tauto
      · simp only [Register, if_neg hcf, if_neg hk]
        simp [hcf]
        tauto
  refine ⟨hiff, fun h => ?_⟩
  obtain ⟨hcf, hk⟩ := hiff.mp h
  have hkneg : ¬ (ent.shape.valueKind ≠ Kind.Ptr ∧ ent.shape.valueKind ≠ Kind.Struct) := by
    tauto
  have hreg : Register db ent =
      (none,
       { alterAll (createTableIfNotExists db ent.table) ent.table (registerCols ent) with
           ents := (alterAll (createTableIfNotExists db ent.table) ent.table
             (registerCols ent)).ents ++ [ent] }) := by
    simp only [Register, if_neg (by simp [hcf] : ¬ db.createFails = true), if_neg hkneg]
  rw [hreg]
  set db₂ := alterAll (createTableIfNotExists db ent.table) ent.table (registerCols ent)
    with hdb₂
  set s₁ : DynamicDB := { db₂ with ents := db₂.ents ++ [ent] } with hs₁
  have hdb₂cf : db₂.createFails = false := by
    rw [hdb₂, alterAll_createFails, cti_createFails, hcf]
  have hs₁some : (lookupTable s₁ ent.table).isSome = true := by
    show (lookupTable db₂ ent.table).isSome = true
    rw [hdb₂, alterAll_isSome, cti_isSome]
  have hcti₂ : createTableIfNotExists s₁ ent.table = s₁ := by
    unfold createTableIfNotExists
    cases hl : lookupTable s₁ ent.table with
    | some tbl => rfl
    | none => rw [hl] at hs₁some; cases hs₁some
  have hpres : ∀ c ∈ registerCols ent, colPresent s₁ ent.table c.name := by
    intro c hc
    exact colPresent_alterAll ent.table (registerCols ent)
      (createTableIfNotExists db ent.table) c hc
  have hreg₂ : Register s₁ ent = (none, { s₁ with ents := s₁.ents ++ [ent] }) := by
    simp only [Register, hcti₂, if_neg hkneg, alterAll_of_present hpres]
    rw [show s₁.createFails = db₂.createFails from rfl, hdb₂cf]
    simp
  rw [hreg₂]
  exact ⟨rfl, rfl, rfl⟩

/-- Witness for register_idempotent_spec: registering the sample task
twice on an empty store. -/
theorem register_idempotent_spec_witness :
    (Register ⟨[], [], false⟩ sampleTask).1 = none ∧
    (Register (Register ⟨[], [], false⟩ sampleTask).2 sampleTask).1 = none ∧
    (Register (Register ⟨[], [], false⟩ sampleTask).2 sampleTask).2.tables =
      (Register ⟨[], [], false⟩ sampleTask).2.tables ∧
    (Register (Register ⟨[], [], false⟩ sampleTask).2 sampleTask).2.ents =
      (Register ⟨[], [], false⟩ sampleTask).2.ents ++ [sampleTask] := by
  have h := (register_idempotent_spec ⟨[], [], false⟩ sampleTask).2 (by decide)
  exact ⟨by decide, h.1, h.2.1, h.2.2⟩

/-- find? after overwriting every cell of the seeked column finds the
written value, provided the column is present. -/
theorem find?_overwrite (c : String) (v : Val) :
    ∀ r : Row, r.any (fun p => p.1 = c) = true →
      List.find? (fun p => p.1 = c)
        (r.map (fun p => if p.1 = c then (c, v) else p)) = some (c, v) := by
  intro r
  induction r with
  | nil => intro h; cases h
  | cons p rest ih =>
    intro h
    by_cases hp : p.1 = c
    · simp [List.find?_cons, hp]
    · have hrest : rest.any (fun p => p.1 = c) = true := by
        simpa [List.any_cons, hp] using h
      simp [List.find?_cons, hp, ih hrest]

/-- Reading the column just assigned yields the assigned value. -/
theorem getVal_setVal_self (c : String) (v : Val) :
    ∀ r : Row, getVal (setVal r c v) c = some v := by
  intro r
  unfold setVal
  by_cases hany : r.any (fun p => p.1 = c) = true
  · rw [if_pos hany]
    unfold getVal
    rw [find?_overwrite c v r hany]
    rfl
  · rw [if_neg hany]
    have hnone : List.find? (fun p => p.1 = c) r = none := by
      rw [List.find?_eq_none]
      intro x hx
      intro hxc
      exact hany (List.any_of_mem hx hxc)
    unfold getVal
    rw [List.find?_append, hnone]
    simp [List.find?_cons]

/-- Reading a different column than the one assigned is unchanged. -/
theorem getVal_setVal_ne {c' c : String} (hne : c' ≠ c) (v : Val) :
    ∀ r : Row, getVal (setVal r c v) c' = getVal r c' := by
  intro r
  unfold setVal
  by_cases hany : r.any (fun p => p.1 = c) = true
  · rw [if_pos hany]
    unfold getVal
    rw [find?_map_keypres (f := fun p => if p.1 = c then (c, v) else p)
      (fun p => by
        dsimp only
        by_cases hp : p.1 = c
        · rw [if_pos hp, hp]
        · rw [if_neg hp]) c']
    cases hf : List.find? (fun p => p.1 = c') r with
    | none => rfl
    | some q =>
      have hq : q.1 = c' := by simpa using List.find?_some hf
      have hqc : ¬ q.1 = c := by rw [hq]; exact hne
      simp [hqc]
  · rw [if_neg hany]
    unfold getVal
    rw [List.find?_append]
    cases hf : List.find? (fun p => p.1 = c') r with
    | none =>
      have : ¬ c = c' := fun h => hne h.symm
      simp [List.find?_cons, this]
    | some p => rfl

/-- Applying a concatenated SET list is sequential application. -/
theorem applySets_append :
    ∀ (xs ys : List (String × Val)) (r : Row),
      applySets r (xs ++ ys) = applySets (applySets r xs) ys := by
  intro xs
  induction xs with
  | nil => intro ys r; rfl
  | cons x xs ih => intro ys r; exact ih ys (setVal r x.1 x.2)

/-- A SET list that never touches a column leaves it unchanged. -/
theorem getVal_applySets_of_not_mem {c : String} :
    ∀ (xs : List (String × Val)) (r : Row), ¬ c ∈ xs.map Prod.fst →
      getVal (applySets r xs) c = getVal r c := by
  intro xs
  induction xs with
  | nil => intro r _; rfl
  | cons x xs ih =>
    intro r h
    rw [List.map_cons, List.mem_cons, not_or] at h
    show getVal (applySets (setVal r x.1 x.2) xs) c = getVal r c
    rw [ih _ h.2, getVal_setVal_ne h.1 x.2]

/-- The trailing UpdatedAt = CURRENT_TIMESTAMP assignment wins: after
the full SET list, the row's UpdatedAt cell holds the engine clock. -/
theorem applySets_update_updatedAt (row : Row) (ent : EntityVal) (now : Nat) :
    getVal (applySets row (updateAssignments ent now)) "UpdatedAt" =
      some (Val.vtime now) := by
  show getVal (applySets
    (setVal (setVal (setVal row "ID" (Val.vstr ent.model.id))
      "CreatedAt" (Val.vtime ent.model.createdAt))
      "UpdatedAt" (Val.vtime ent.model.updatedAt))
    (ent.scalars ++ [("UpdatedAt", Val.vtime now)])) "UpdatedAt" = _
  rw [applySets_append]
  exact getVal_setVal_self "UpdatedAt" (Val.vtime now) _

/-- The SET list writes the record's in-memory CreatedAt into the stored
row (so the stored CreatedAt is unchanged exactly when the two agreed),
provided no scalar field shadows the CreatedAt column. -/
theorem applySets_update_createdAt (row : Row) (ent : EntityVal) (now : Nat)
    (h : ¬ "CreatedAt" ∈ ent.scalars.map Prod.fst) :
    getVal (applySets row (updateAssignments ent now)) "CreatedAt" =
      some (Val.vtime ent.model.createdAt) := by
  show getVal (applySets
    (setVal (setVal (setVal row "ID" (Val.vstr ent.model.id))
      "CreatedAt" (Val.vtime ent.model.createdAt))
      "UpdatedAt" (Val.vtime ent.model.updatedAt))
    (ent.scalars ++ [("UpdatedAt", Val.vtime now)])) "CreatedAt" = _
  rw [applySets_append]
  show getVal (setVal _ "UpdatedAt" (Val.vtime now)) "CreatedAt" = _
  rw [getVal_setVal_ne (by decide) (Val.vtime now) _]
  rw [getVal_applySets_of_not_mem ent.scalars _ h]
  rw [getVal_setVal_ne (by decide) (Val.vtime ent.model.updatedAt) _]
  exact getVal_setVal_self "CreatedAt" (Val.vtime ent.model.createdAt) _

/-- Replacing the table a lookup finds yields the replacement. -/
theorem lookupTable_setTable (db : DynamicDB) (t : String) (tbl : Table)
    (h : (lookupTable db t).isSome = true) :
    lookupTable (setTable db t tbl) t = some tbl := by
  unfold setTable lookupTable
  rw [find?_map_keypres (f := fun p => if p.1 = t then (t, tbl) else p)
    (fun p => by
      dsimp only
      by_cases hp : p.1 = t
      · rw [if_pos hp, hp]
      · rw [if_neg hp]) t]
  unfold lookupTable at h
  cases hf : List.find? (fun p => p.1 = t) db.tables with
  | none => rw [hf] at h; cases h
  | some q =>
    have hq : q.1 = t := by simpa using List.find?_some hf
    simp [hq]

/-- C8 (amended): Update targets the rows whose stored identifier equals
the identifier captured from the record's reflected field list, sets the
stored UpdatedAt to the engine clock (strictly above the prior value
when the clock advanced), writes that fresh UpdatedAt back into the
record via RETURNING, rewrites the stored CreatedAt from the record's
own CreatedAt (hence leaves it unchanged exactly when the two agreed),
and leaves non-matching rows untouched. -/
theorem update_spec :
    ∀ (db : DynamicDB) (ent : EntityVal) (now prior : Nat) (tbl : Table) (row : Row),
      lookupTable db ent.table = some tbl →
      tbl.rows.filter (fun r => rowMatches r ent.model.id) = [row] →
      getVal row "UpdatedAt" = some (Val.vtime prior) →
      prior < now →
      ¬ "CreatedAt" ∈ ent.scalars.map Prod.fst →
      (Update db ent now).2.2 = none ∧
      (Update db ent now).2.1 =
        { ent with model := ⟨ent.model.id, ent.model.createdAt, now⟩ } ∧
      lookupTable (Update db ent now).1 ent.table =
        some { tbl with rows := tbl.rows.map (fun r =>
          if rowMatches r ent.model.id then
            applySets r (updateAssignments ent now) else r) } ∧
      getVal (applySets row (updateAssignments ent now)) "UpdatedAt" =
        some (Val.vtime now) ∧
      prior < now ∧
      getVal (applySets row (updateAssignments ent now)) "CreatedAt" =
        some (Val.vtime ent.model.createdAt) ∧
      (∀ r ∈ tbl.rows, rowMatches r ent.model.id = false →
        (if rowMatches r ent.model.id then
          applySets r (updateAssignments ent now) else r) = r) := by
  intro db ent now prior tbl row hlk hfil hrowUA hlt hsc
  have hUA := applySets_update_updatedAt row ent now
  have hupd : Update db ent now =
      (setTable db ent.table { tbl with rows := tbl.rows.map (fun r =>
          if rowMatches r ent.model.id then
            applySets r (updateAssignments ent now) else r) },
       { ent with model := ⟨ent.model.id, ent.model.createdAt, now⟩ }, none) := by
    unfold Update
    rw [hlk]
    dsimp only
    rw [hfil]
    dsimp only [List.map_cons]
    rw [hUA]
    rfl
  refine ⟨by rw [hupd], by rw [hupd], ?_, hUA, hlt,
    applySets_update_createdAt row ent now hsc, fun r hr hnm => if_neg (by simp [hnm])⟩
  rw [hupd]
  exact lookupTable_setTable db ent.table _ (by rw [hlk]; rfl)

/-- Witness for update_spec: updating the sample task against the store
row it was inserted as, with the clock at 9. -/
theorem update_spec_witness :
    (Update sampleDb sampleTask 9).2.2 = none ∧
    (Update sampleDb sampleTask 9).2.1 =
      { sampleTask with model :=
        ⟨sampleTask.model.id, sampleTask.model.createdAt, 9⟩ } ∧
    getVal (applySets (rowOfEntity sampleTask) (updateAssignments sampleTask 9))
      "CreatedAt" = some (Val.vtime sampleTask.model.createdAt) := by
  have h := update_spec sampleDb sampleTask 9 5 ⟨baseColumns, [rowOfEntity sampleTask]⟩
    (rowOfEntity sampleTask) (by decide) (by decide) (by decide) (by decide) (by decide)
  exact ⟨h.1, h.2.1, h.2.2.2.2.2.1⟩

/-- C8 counterexample: a record whose in-memory CreatedAt (2) disagrees
with the stored CreatedAt (1); Update succeeds and the stored CreatedAt
becomes 2 — the claim that Update leaves the stored CreatedAt unchanged
for every record fails here, while UpdatedAt correctly becomes the
engine clock (7). -/
theorem update_rewrites_createdAt_counterexample :
    getVal staleRow "CreatedAt" = some (Val.vtime 1) ∧
    staleEnt.model.createdAt = 2 ∧
    (Update staleDb staleEnt 7).2.2 = none ∧
    lookupTable (Update staleDb staleEnt 7).1 "tasks" =
      some ⟨baseColumns, [applySets staleRow (updateAssignments staleEnt 7)]⟩ ∧
    getVal (applySets staleRow (updateAssignments staleEnt 7)) "CreatedAt" =
      some (Val.vtime 2) ∧
    ((Val.vtime 2 == Val.vtime 1) = false) ∧
    getVal (applySets staleRow (updateAssignments staleEnt 7)) "UpdatedAt" =
      some (Val.vtime 7) := by
  refine ⟨by decide, by decide, by decide, by decide, by decide, by decide, by decide⟩

end Devtools
